import Mathlib

/-!
Shallow embedding of the xpath package facade (src/xpath.go): compile
options, the compile entry points, MustCompile, Expr evaluation and the
NodeIterator protocol.

Mutable NodeNavigator cursor objects (the Go interface values, which are
references to mutable state) are modelled by a heap of positions indexed
by navigator references; repositioning a navigator mutates the heap cell
it points to, and Copy allocates a fresh cell.  The query operator
library and the tokenizer/parser pipeline are not part of the embedded
source file, so they are modelled from the spec: a query is a state
machine over an abstract state type, and the build step is an arbitrary
function producing either an error, an optional query plan and an
optional parser handle.  The compile result mirrors Go's two-value
return (expression pointer, error), each possibly nil.
-/

namespace XPath

/-- CompileOptions allows customizing the behavior of the XPath parser. -/
structure CompileOptions where
  StrictEOF : Bool
  deriving DecidableEq

/-- StrictPreset enables all strictness options. -/
def StrictPreset : CompileOptions := { StrictEOF := true }

/-- Modelled from the spec: the kinds of lexical items the tokenizer
produces; compilation only discriminates the distinguished end-marker
(itemEOF), which the scanner keeps returning once input is exhausted. -/
inductive ItemType where
  | itemEOF
  | itemName
  | itemNumber
  | itemString
  | itemOperator
  deriving DecidableEq

/-- Modelled from the spec: the slice of the parser state (the fields of
p.r) that CompileWithOptionsAndNS consults — the current token kind and
the scanner text/offset fields used to build the trailing-token error. -/
structure ParserHandle where
  rTyp : ItemType
  rText : String
  rPos : Nat
  rCurrSize : Nat

/-- A navigator reference: the identity of a mutable NodeNavigator
object (a Go interface value holding a pointer). -/
abbrev NavRef := Nat

/-- The store of navigator objects: cell r holds the current position of
the navigator with reference r. -/
structure Heap (Pos : Type) where
  objs : List Pos

variable {Pos σ : Type}

/-- Position currently held by the navigator object r. -/
def Heap.get [Inhabited Pos] (h : Heap Pos) (r : NavRef) : Pos :=
  h.objs.getD r default

/-- Reposition the navigator object r to position p. -/
def Heap.set (h : Heap Pos) (r : NavRef) (p : Pos) : Heap Pos :=
  ⟨h.objs.set r p⟩

/-- The host-tree side of the cursor contract that MoveNext exercises:
whether repositioning a cursor at the first position onto the second
position succeeds.  On failure the cursor's position is unchanged. -/
structure NavImpl (Pos : Type) where
  moveToOk : Pos → Pos → Bool

/-- The result of a query plan's scalar evaluation: bool, float64,
string, or a node-set (in Go the node-set case is a value implementing
the query interface; Expr.Evaluate only inspects the tag and discards
the value itself, so the model carries no payload for it). -/
inductive EvalVal where
  | vBool (b : Bool)
  | vNum (x : Float)
  | vStr (s : String)
  | vNodes

/-- Modelled from the spec: a query operator of the missing operator
library, as a deterministic state machine over a private state type.
Advancing (the Select method of the Go query interface) reads the
context navigator's current position and yields the position of the
next matching navigator, or none on exhaustion, together with the
updated private state; scalar evaluation reads the context position
and yields a Value. -/
structure Query (Pos σ : Type) where
  state : σ
  step : σ → Pos → Option Pos × σ
  eval : σ → Pos → EvalVal

/-- Modelled from the spec: Duplicate (the Clone method) deep-copies the
operator tree together with its private iteration state; on this pure
value representation a deep copy is the value itself. -/
def Query.Clone (q : Query Pos σ) : Query Pos σ := q

/-- Modelled from the spec: the pre-built always-empty sentinel query
used by MustCompile — it never yields a match and its scalar value is
an empty node-set. -/
def nopQuery [Inhabited σ] : Query Pos σ :=
  { state := default
    step := fun s _ => (none, s)
    eval := fun _ _ => EvalVal.vNodes }

/-- Expr is an XPath expression for query. -/
structure Expr (Pos σ : Type) where
  s : String
  q : Query Pos σ

/-- String returns XPath expression string. -/
def Expr.String (expr : Expr Pos σ) : String := expr.s

/-- NodeIterator holds all matched Node object. -/
structure NodeIterator (Pos σ : Type) where
  node : NavRef
  query : Query Pos σ

/-- Current returns current node which matched. -/
def NodeIterator.Current (t : NodeIterator Pos σ) : NavRef := t.node

/-- MoveNext moves Navigator to the next match node: it advances the
query; on a match n it tries t.node.MoveTo(n) and, if that fails,
replaces t.node by n.Copy() (a freshly allocated navigator at the
matched position). -/
def NodeIterator.MoveNext [Inhabited Pos] (t : NodeIterator Pos σ)
    (impl : NavImpl Pos) (h : Heap Pos) :
    Bool × NodeIterator Pos σ × Heap Pos :=
  match t.query.step t.query.state (h.get t.node) with
  | (none, s') =>
      (false, { node := t.node, query := { t.query with state := s' } }, h)
  | (some p, s') =>
      if impl.moveToOk (h.get t.node) p then
        (true, { node := t.node, query := { t.query with state := s' } },
         h.set t.node p)
      else
        (true, { node := h.objs.length, query := { t.query with state := s' } },
         ⟨h.objs ++ [p]⟩)

/-- The errors the compile facade can produce, tagged by construction
site: the empty-expression error, an error propagated from build, the
strict-mode trailing-token error (carrying the scanner tail text), and
the undeclared-variable error. -/
inductive XPathError where
  | emptyExpr
  | buildError (msg : String)
  | unexpectedTokenAfterEOF (tail : String)
  | undeclaredVariable (expr : String)
  deriving DecidableEq

/-- The namespaces argument: none models a nil Go map. -/
abbrev NamespaceMap := Option (List (String × String))

/-- Modelled from the spec: the outcome of the tokenizer+parser pipeline
(the build function, outside the embedded source).  Go returns the
triple (q query, p *parser, err error); err is checked first, so the
model collapses the failure case, and on success the query may be nil
(the undeclared-variable case) and the parser handle may be nil. -/
inductive BuildResult (Pos σ : Type) where
  | err (msg : String)
  | ok (q : Option (Query Pos σ)) (p : Option ParserHandle)

/-- An arbitrary build pipeline; compilation is proved correct for
every such pipeline. -/
abbrev BuildFn (Pos σ : Type) := String → NamespaceMap → BuildResult Pos σ

/-- Whether parsing consumed the whole input: the parser handle, when
present, rests on the end-marker token. -/
def BuildResult.consumedInput : BuildResult Pos σ → Bool
  | .err _ => true
  | .ok _ none => true
  | .ok _ (some p) => p.rTyp == ItemType.itemEOF

/-- The strict-mode guard of CompileWithOptionsAndNS:
opts.StrictEOF and p is non-nil and p.r.typ is not itemEOF. -/
def strictViolated (opts : CompileOptions) (p? : Option ParserHandle) : Bool :=
  opts.StrictEOF &&
    match p? with
    | none => false
    | some p => !(p.rTyp == ItemType.itemEOF)

/-- The text of the strict-mode error: the tail of the scanner text
from offset p.r.pos - p.r.currSize - 1 (bytes in Go, characters
here; never consulted when the parser handle is nil). -/
def errTail : Option ParserHandle → String
  | none => ""
  | some p => p.rText.drop (p.rPos - p.rCurrSize - 1)

/-- CompileWithOptionsAndNS compiles an XPath expression string with
options and namespaces, returning the pair (expression, error) with
the source's check order: empty input, build failure, strict
trailing-token check, nil query (undeclared variable), success. -/
def CompileWithOptionsAndNS (build : BuildFn Pos σ) (expr : String)
    (opts : CompileOptions) (namespaces : NamespaceMap) :
    Option (Expr Pos σ) × Option XPathError :=
  if expr = "" then
    (none, some XPathError.emptyExpr)
  else
    match build expr namespaces with
    | .err msg => (none, some (XPathError.buildError msg))
    | .ok q p? =>
        if strictViolated opts p? then
          (none, some (XPathError.unexpectedTokenAfterEOF (errTail p?)))
        else
          match q with
          | none => (none, some (XPathError.undeclaredVariable expr))
          | some qq => (some { s := expr, q := qq }, none)

/-- Compile compiles an XPath expression string. -/
def Compile (build : BuildFn Pos σ) (expr : String) :
    Option (Expr Pos σ) × Option XPathError :=
  CompileWithOptionsAndNS build expr { StrictEOF := false } none

/-- MustCompile compiles an XPath expression string and ignored error:
on a compile error it returns the sentinel expression carrying the
original source text and the no-op query; otherwise it returns exactly
what Compile returned. -/
def MustCompile [Inhabited σ] (build : BuildFn Pos σ) (expr : String) :
    Option (Expr Pos σ) :=
  match Compile build expr with
  | (_, some _) => some { s := expr, q := nopQuery }
  | (exp, none) => exp

/-- CompileWithNS compiles an XPath expression string, using given
namespaces map. -/
def CompileWithNS (build : BuildFn Pos σ) (expr : String)
    (namespaces : NamespaceMap) : Option (Expr Pos σ) × Option XPathError :=
  CompileWithOptionsAndNS build expr { StrictEOF := false } namespaces

/-- CompileWithOptions compiles an XPath expression string with the
given options. -/
def CompileWithOptions (build : BuildFn Pos σ) (expr : String)
    (opts : CompileOptions) : Option (Expr Pos σ) × Option XPathError :=
  CompileWithOptionsAndNS build expr opts none

/-- Select selects a node set using the specified XPath expression: the
iterator pairs a Clone of the stored plan with the caller-supplied
navigator reference itself. -/
def Expr.Select (expr : Expr Pos σ) (root : NavRef) : NodeIterator Pos σ :=
  { query := expr.q.Clone, node := root }

/-- The result of Expr.Evaluate: one of bool, float64, string, or a
node iterator. -/
inductive EvalResult (Pos σ : Type) where
  | vBool (b : Bool)
  | vNum (x : Float)
  | vStr (s : String)
  | iter (t : NodeIterator Pos σ)

/-- Evaluate returns the result of the expression: it evaluates the
stored plan against the root navigator's position; a node-set result is
turned into a NodeIterator over a Clone of the plan at the root
reference, any scalar is returned unchanged. -/
def Expr.Evaluate [Inhabited Pos] (expr : Expr Pos σ) (root : NavRef)
    (h : Heap Pos) : EvalResult Pos σ :=
  match expr.q.eval expr.q.state (h.get root) with
  | .vNodes => .iter { query := expr.q.Clone, node := root }
  | .vBool b => .vBool b
  | .vNum x => .vNum x
  | .vStr s => .vStr s

/-- The observable outcome of the deprecated package-level Select:
either a panic carrying the compile error, the (unreachable) nil
dereference of a nil expression, or a normal return. -/
inductive SelectOutcome (Pos σ : Type) where
  | panicked (e : XPathError)
  | nilDeref
  | returned (t : NodeIterator Pos σ)

/-- Select selects a node set using the specified XPath expression;
this deprecated package-level form panics on a compile error. -/
def Select (build : BuildFn Pos σ) (root : NavRef) (expr : String) :
    SelectOutcome Pos σ :=
  match Compile build expr with
  | (_, some err) => .panicked err
  | (some exp, none) => .returned (exp.Select root)
  | (none, none) => .nilDeref

/-- Drain an iterator with the given fuel, collecting the position of
Current after each successful MoveNext (the content a caller consuming
the iterator observes) together with the final heap. -/
def drainAll [Inhabited Pos] (impl : NavImpl Pos) :
    Nat → NodeIterator Pos σ → Heap Pos → List Pos × Heap Pos
  | 0, _, h => ([], h)
  | n + 1, t, h =>
      match t.MoveNext impl h with
      | (false, _, h') => ([], h')
      | (true, t', h') =>
          let rest := drainAll impl n t' h'
          (h'.get t'.node :: rest.1, rest.2)

/-! ## Helper lemmas -/

theorem getD_set_self {α : Type} (l : List α) (r : Nat) (a d : α)
    (hr : r < l.length) : (l.set r a).getD r d = a := by
  induction l generalizing r with
  | nil => simp at hr
  | cons x xs ih =>
      cases r with
      | zero => simp
      | succ r =>
          rw [List.set_cons_succ, List.getD_cons_succ]
          exact ih r (by simp at hr; omega)

theorem getD_append_length {α : Type} (l : List α) (a d : α) :
    (l ++ [a]).getD l.length d = a := by
  induction l with
  | nil => rfl
  | cons x xs ih => simp [List.getD_cons_succ, ih]

/-- Every compile result is either a successful expression carrying the
source text with a nil error, or a nil expression with an error. -/
theorem compile_shape (build : BuildFn Pos σ) (e : String) (opts : CompileOptions)
    (ns : NamespaceMap) :
    (∃ ex : Expr Pos σ,
        CompileWithOptionsAndNS build e opts ns = (some ex, none) ∧ ex.s = e) ∨
    (∃ er, CompileWithOptionsAndNS build e opts ns = (none, some er)) := by
  unfold CompileWithOptionsAndNS
  split
  · exact Or.inr ⟨_, rfl⟩
  · split
    · exact Or.inr ⟨_, rfl⟩
    · split
      · exact Or.inr ⟨_, rfl⟩
      · split
        · exact Or.inr ⟨_, rfl⟩
        · exact Or.inl ⟨_, rfl, rfl⟩

/-! ## Claims -/

/-- C1: compiling the empty string through any of the four entry points,
for every build pipeline, options value and namespace map (including nil),
returns no compiled expression and the empty-expression error. -/
theorem compile_empty_is_error (build : BuildFn Pos σ) (opts : CompileOptions)
    (ns : NamespaceMap) :
    Compile build "" = ((none : Option (Expr Pos σ)), some XPathError.emptyExpr) ∧
    CompileWithNS build "" ns = (none, some XPathError.emptyExpr) ∧
    CompileWithOptions build "" opts = (none, some XPathError.emptyExpr) ∧
    CompileWithOptionsAndNS build "" opts ns = (none, some XPathError.emptyExpr) := by
  refine ⟨?_, ?_, ?_, ?_⟩ <;>
    simp [Compile, CompileWithNS, CompileWithOptions, CompileWithOptionsAndNS]

/-- C7: whenever any compile entry point reports a non-nil error, the
returned expression is nil — a failed compile never yields a usable
compiled expression. -/
theorem compile_error_yields_no_expr (build : BuildFn Pos σ) (e : String)
    (opts : CompileOptions) (ns : NamespaceMap) :
    ((CompileWithOptionsAndNS build e opts ns).2.isSome = true →
        (CompileWithOptionsAndNS build e opts ns).1 = none) ∧
    ((Compile build e).2.isSome = true → (Compile build e).1 = none) ∧
    ((CompileWithNS build e ns).2.isSome = true → (CompileWithNS build e ns).1 = none) ∧
    ((CompileWithOptions build e opts).2.isSome = true →
        (CompileWithOptions build e opts).1 = none) := by
  have key : ∀ (o : CompileOptions) (m : NamespaceMap),
      (CompileWithOptionsAndNS build e o m).2.isSome = true →
      (CompileWithOptionsAndNS build e o m).1 = none := by
    intro o m hs
    rcases compile_shape build e o m with ⟨ex, hex, -⟩ | ⟨er, her⟩
    · rw [hex] at hs; simp at hs
    · rw [her]
  exact ⟨key opts ns, key { StrictEOF := false } none,
    key { StrictEOF := false } ns, key opts none⟩

def buildFailW : BuildFn Nat Nat := fun _ _ => .err "lexical error"

/-- C7 witness: with a concretely failing build pipeline and a nonempty
expression, all four entry points return no expression. -/
theorem compile_error_yields_no_expr_witness :
    (CompileWithOptionsAndNS buildFailW "a" { StrictEOF := true } none).1 = none ∧
    (Compile buildFailW "a").1 = none ∧
    (CompileWithNS buildFailW "a" none).1 = none ∧
    (CompileWithOptions buildFailW "a" { StrictEOF := true }).1 = none := by
  have h := compile_error_yields_no_expr buildFailW "a" { StrictEOF := true } none
  exact ⟨h.1 rfl, h.2.1 rfl, h.2.2.1 rfl, h.2.2.2 rfl⟩

/-- C8: the compile entry points use only the explicitly passed options
and namespace map: each delegates to CompileWithOptionsAndNS with the zero
options value and/or a nil namespace map, and none consults the StrictPreset
package value (whose content the first conjunct records). -/
theorem compile_entry_points_explicit_options (build : BuildFn Pos σ) (e : String)
    (opts : CompileOptions) (ns : NamespaceMap) :
    StrictPreset = { StrictEOF := true } ∧
    Compile build e = CompileWithOptionsAndNS build e { StrictEOF := false } none ∧
    CompileWithNS build e ns = CompileWithOptionsAndNS build e { StrictEOF := false } ns ∧
    CompileWithOptions build e opts = CompileWithOptionsAndNS build e opts none :=
  ⟨rfl, rfl, rfl, rfl⟩

/-- C2: when parsing consumes the whole input (the parser handle, when
present, rests on the end-marker), compilation with StrictEOF true and
with StrictEOF false produce the same result; when parsing succeeds
(yielding a plan and a parser handle) but leaves unconsumed trailing
tokens, compilation with StrictEOF false succeeds while compilation with
StrictEOF true returns the trailing-token compile error. -/
theorem strictEOF_compile_behavior (build : BuildFn Pos σ) (e : String)
    (ns : NamespaceMap) :
    ((build e ns).consumedInput = true →
      CompileWithOptionsAndNS build e { StrictEOF := true } ns =
        CompileWithOptionsAndNS build e { StrictEOF := false } ns) ∧
    (∀ (qq : Query Pos σ) (p : ParserHandle), e ≠ "" →
      build e ns = .ok (some qq) (some p) → p.rTyp ≠ ItemType.itemEOF →
      CompileWithOptionsAndNS build e { StrictEOF := false } ns =
        (some { s := e, q := qq }, none) ∧
      CompileWithOptionsAndNS build e { StrictEOF := true } ns =
        (none, some (XPathError.unexpectedTokenAfterEOF (errTail (some p))))) := by
  constructor
  · intro hc
    by_cases he : e = ""
    · simp [CompileWithOptionsAndNS, he]
    · unfold CompileWithOptionsAndNS
      rw [if_neg he, if_neg he]
      cases hb : build e ns with
      | err m => rfl
      | ok q p? =>
          have hv : strictViolated { StrictEOF := true } p? = false := by
            rw [hb] at hc
            cases p? with
            | none => rfl
            | some p =>
                simp [BuildResult.consumedInput] at hc
                simp [strictViolated, hc]
          have hv' : strictViolated { StrictEOF := false } p? = false := by
            simp [strictViolated]
          simp [hv, hv']
  · intro qq p he hb hne
    constructor
    · unfold CompileWithOptionsAndNS
      rw [if_neg he, hb]
      simp [strictViolated]
    · unfold CompileWithOptionsAndNS
      rw [if_neg he, hb]
      have hv : strictViolated { StrictEOF := true } (some p) = true := by
        simp [strictViolated, hne]
      simp [hv]

def qWitC2 : Query Nat Nat :=
  { state := 0, step := fun s _ => (none, s), eval := fun _ _ => EvalVal.vNodes }

def pTrailWitC2 : ParserHandle :=
  { rTyp := ItemType.itemNumber, rText := "1 1", rPos := 3, rCurrSize := 1 }

def pEOFWitC2 : ParserHandle :=
  { rTyp := ItemType.itemEOF, rText := "1", rPos := 1, rCurrSize := 0 }

def buildTrailWitC2 : BuildFn Nat Nat := fun _ _ => .ok (some qWitC2) (some pTrailWitC2)

def buildEOFWitC2 : BuildFn Nat Nat := fun _ _ => .ok (some qWitC2) (some pEOFWitC2)

/-- C2 witness: at the concrete expression with trailing tokens, non-strict
compilation succeeds while strict compilation fails with the trailing-token
error; at a fully consumed input, strict and non-strict agree. -/
theorem strictEOF_compile_behavior_witness :
    CompileWithOptionsAndNS buildTrailWitC2 "1 1" { StrictEOF := false } none =
      (some { s := "1 1", q := qWitC2 }, none) ∧
    CompileWithOptionsAndNS buildTrailWitC2 "1 1" { StrictEOF := true } none =
      (none, some (XPathError.unexpectedTokenAfterEOF (errTail (some pTrailWitC2)))) ∧
    CompileWithOptionsAndNS buildEOFWitC2 "1" { StrictEOF := true } none =
      CompileWithOptionsAndNS buildEOFWitC2 "1" { StrictEOF := false } none := by
  have h2 := (strictEOF_compile_behavior buildTrailWitC2 "1 1" none).2 qWitC2
    pTrailWitC2 (by decide) rfl (by decide)
  have h1 := (strictEOF_compile_behavior buildEOFWitC2 "1" none).1 rfl
  exact ⟨h2.1, h2.2, h1⟩

/-- C3: MustCompile never propagates an error and never returns nil: it
always returns an expression whose String is the original source text;
when Compile succeeds it returns exactly Compile's expression, and when
Compile fails it returns the sentinel expression built from the no-op
query. -/
theorem mustCompile_never_fails {Pos σ : Type} [Inhabited σ]
    (build : BuildFn Pos σ) (e : String) :
    ∃ ex : Expr Pos σ,
      MustCompile build e = some ex ∧
      ex.String = e ∧
      (∀ ex', Compile build e = (some ex', none) → ex = ex') ∧
      ((Compile build e).2.isSome = true → ex = { s := e, q := nopQuery }) := by
  rcases compile_shape build e { StrictEOF := false } none with ⟨ex, hex, hs⟩ | ⟨er, her⟩
  · have hc : Compile build e = (some ex, none) := hex
    refine ⟨ex, ?_, hs, ?_, ?_⟩
    · unfold MustCompile
      rw [hc]
    · intro ex' h'
      rw [hc] at h'
      exact Option.some.inj (congrArg Prod.fst h')
    · intro hsome
      rw [hc] at hsome
      simp at hsome
  · have hc : Compile build e = (none, some er) := her
    refine ⟨{ s := e, q := nopQuery }, ?_, rfl, ?_, fun _ => rfl⟩
    · unfold MustCompile
      rw [hc]
    · intro ex' h'
      rw [hc] at h'
      simp at h'

def buildFailC3 : BuildFn Nat Nat := fun _ _ => .err "syntax error"

/-- C3 witness: at a concretely failing compile, MustCompile returns the
sentinel expression and preserves the source text. -/
theorem mustCompile_never_fails_witness :
    MustCompile buildFailC3 "@@" = some { s := "@@", q := nopQuery } ∧
    (MustCompile buildFailC3 "@@").map Expr.String = some "@@" := by
  obtain ⟨ex, h1, h2, -, h4⟩ := mustCompile_never_fails buildFailC3 "@@"
  have hx : ex = { s := "@@", q := nopQuery } := h4 rfl
  refine ⟨by rw [h1, hx], ?_⟩
  rw [h1]
  simp [Option.map, h2]

/-- C9: the deprecated package-level Select panics with the compile error
exactly when compilation of the expression fails, and returns the
compiled expression's iterator exactly when Compile succeeds. -/
theorem select_panics_on_compile_error (build : BuildFn Pos σ) (root : NavRef)
    (e : String) :
    (∀ er, (Compile build e).2 = some er → Select build root e = .panicked er) ∧
    ((Compile build e).2 = none →
      ∃ exp, Compile build e = (some exp, none) ∧
        Select build root e = .returned (exp.Select root)) := by
  rcases compile_shape build e { StrictEOF := false } none with ⟨ex, hex, -⟩ | ⟨er, her⟩
  · have hc : Compile build e = (some ex, none) := hex
    constructor
    · intro er h
      rw [hc] at h
      simp at h
    · intro _
      refine ⟨ex, hc, ?_⟩
      unfold Select
      rw [hc]
  · have hc : Compile build e = (none, some er) := her
    constructor
    · intro er' h
      rw [hc] at h
      simp at h
      rw [← h]
      unfold Select
      rw [hc]
    · intro h
      rw [hc] at h
      simp at h

def qOkC9 : Query Nat Nat :=
  { state := 0, step := fun s _ => (none, s), eval := fun _ _ => EvalVal.vNodes }

def buildOkC9 : BuildFn Nat Nat := fun _ _ => .ok (some qOkC9) none

/-- C9 witness: Select panics with the empty-expression error on the empty
string and returns the iterator on a successfully compiled expression. -/
theorem select_panics_on_compile_error_witness :
    Select buildOkC9 0 "" = SelectOutcome.panicked XPathError.emptyExpr ∧
    Select buildOkC9 0 "a" =
      SelectOutcome.returned (Expr.Select { s := "a", q := qOkC9 } 0) := by
  constructor
  · exact (select_panics_on_compile_error buildOkC9 0 "").1 XPathError.emptyExpr rfl
  · obtain ⟨exp, h1, h2⟩ := (select_panics_on_compile_error buildOkC9 0 "a").2 rfl
    have h4 := congrArg Prod.fst h1
    have h5 : (some { s := "a", q := qOkC9 } : Option (Expr Nat Nat)) = some exp := h4
    rw [← Option.some.inj h5] at h2
    exact h2

theorem Heap.get_set_self [Inhabited Pos] (h : Heap Pos) (r : NavRef) (p : Pos)
    (hr : r < h.objs.length) : (h.set r p).get r = p :=
  getD_set_self h.objs r p default hr

theorem Heap.get_alloc [Inhabited Pos] (h : Heap Pos) (p : Pos) :
    Heap.get ⟨h.objs ++ [p]⟩ h.objs.length = p :=
  getD_append_length h.objs p default

/-- C6: Expr.Evaluate returns exactly one of boolean, number, string, or
node iterator: when the plan's scalar evaluation yields a node-set value
it returns a NodeIterator pairing a Clone of the plan with the starting
navigator, and any scalar value is returned unchanged. -/
theorem evaluate_result_shape [Inhabited Pos] (expr : Expr Pos σ) (root : NavRef)
    (h : Heap Pos) :
    (expr.q.eval expr.q.state (h.get root) = EvalVal.vNodes →
      expr.Evaluate root h = .iter { query := expr.q.Clone, node := root }) ∧
    (∀ b, expr.q.eval expr.q.state (h.get root) = EvalVal.vBool b →
      expr.Evaluate root h = .vBool b) ∧
    (∀ x, expr.q.eval expr.q.state (h.get root) = EvalVal.vNum x →
      expr.Evaluate root h = .vNum x) ∧
    (∀ s, expr.q.eval expr.q.state (h.get root) = EvalVal.vStr s →
      expr.Evaluate root h = .vStr s) := by
  refine ⟨fun hv => ?_, fun b hv => ?_, fun x hv => ?_, fun s hv => ?_⟩ <;>
    · unfold Expr.Evaluate
      rw [hv]

def qNodesC6 : Query Nat Nat :=
  { state := 0, step := fun s _ => (none, s), eval := fun _ _ => EvalVal.vNodes }

def qStrC6 : Query Nat Nat :=
  { state := 0, step := fun s _ => (none, s), eval := fun _ _ => EvalVal.vStr "v" }

/-- C6 witness: a node-set-valued plan evaluates to an iterator over a
clone of the plan at the starting navigator, and a string-valued plan
evaluates to that unchanged string. -/
theorem evaluate_result_shape_witness :
    Expr.Evaluate { s := "a", q := qNodesC6 } 0 ⟨[7]⟩ =
      EvalResult.iter { query := qNodesC6.Clone, node := 0 } ∧
    Expr.Evaluate { s := "b", q := qStrC6 } 0 ⟨[7]⟩ = EvalResult.vStr "v" :=
  ⟨(evaluate_result_shape { s := "a", q := qNodesC6 } 0 ⟨[7]⟩).1 rfl,
    (evaluate_result_shape { s := "b", q := qStrC6 } 0 ⟨[7]⟩).2.2.2 "v" rfl⟩

/-- C10: when the query yields no further match, MoveNext returns false
and leaves the current node (reference and heap) unchanged; when the
query yields a match, MoveNext returns true and Current afterwards sits
at the match's position — keeping the held navigator when MoveTo
succeeds, else replacing it with the freshly copied navigator. -/
theorem moveNext_behavior [Inhabited Pos] (impl : NavImpl Pos)
    (t : NodeIterator Pos σ) (h : Heap Pos) (hnode : t.node < h.objs.length) :
    (∀ s', t.query.step t.query.state (h.get t.node) = (none, s') →
      (t.MoveNext impl h).1 = false ∧
      (t.MoveNext impl h).2.1.Current = t.Current ∧
      (t.MoveNext impl h).2.2 = h) ∧
    (∀ p s', t.query.step t.query.state (h.get t.node) = (some p, s') →
      (t.MoveNext impl h).1 = true ∧
      (t.MoveNext impl h).2.2.get (t.MoveNext impl h).2.1.Current = p ∧
      (impl.moveToOk (h.get t.node) p = true →
        (t.MoveNext impl h).2.1.Current = t.Current) ∧
      (impl.moveToOk (h.get t.node) p = false →
        (t.MoveNext impl h).2.1.Current = h.objs.length)) := by
  constructor
  · intro s' hs
    simp [NodeIterator.MoveNext, hs, NodeIterator.Current]
  · intro p s' hs
    by_cases hm : impl.moveToOk (h.get t.node) p = true
    · simp [NodeIterator.MoveNext, hs, hm, NodeIterator.Current]
      exact Heap.get_set_self h t.node p hnode
    · have hm' : impl.moveToOk (h.get t.node) p = false := by simpa using hm
      simp [NodeIterator.MoveNext, hs, hm', NodeIterator.Current]
      exact Heap.get_alloc h p

def qW10 : Query Nat Nat :=
  { state := 0
    step := fun s _ => if s = 0 then (some 7, 1) else (none, s)
    eval := fun _ _ => EvalVal.vNodes }

def implW10 : NavImpl Nat := { moveToOk := fun _ _ => false }

def tW10 : NodeIterator Nat Nat := { node := 0, query := qW10 }

/-- C10 witness: at a concrete iterator whose query yields position 7 and
whose navigator refuses MoveTo, MoveNext returns true and Current is a
fresh navigator (reference 1) at position 7; after exhaustion MoveNext
returns false and leaves the current node in place. -/
theorem moveNext_behavior_witness :
    ((tW10.MoveNext implW10 ⟨[3]⟩).1 = true ∧
      (tW10.MoveNext implW10 ⟨[3]⟩).2.2.get
        (tW10.MoveNext implW10 ⟨[3]⟩).2.1.Current = 7 ∧
      (tW10.MoveNext implW10 ⟨[3]⟩).2.1.Current = 1) ∧
    (({ node := 0, query := { qW10 with state := 1 } } :
        NodeIterator Nat Nat).MoveNext implW10 ⟨[3]⟩).1 = false ∧
    (({ node := 0, query := { qW10 with state := 1 } } :
        NodeIterator Nat Nat).MoveNext implW10 ⟨[3]⟩).2.1.Current =
      ({ node := 0, query := { qW10 with state := 1 } } :
        NodeIterator Nat Nat).Current := by
  have h1 := (moveNext_behavior implW10 tW10 ⟨[3]⟩ (by decide)).2 7 1 rfl
  have h2 := (moveNext_behavior implW10
    { node := 0, query := { qW10 with state := 1 } } ⟨[3]⟩ (by decide)).1 1 rfl
  exact ⟨⟨h1.1, h1.2.1, h1.2.2.2 rfl⟩, h2.1, h2.2.1⟩

def qStepC4 : Query Nat Nat :=
  { state := 0
    step := fun s cur => (some (cur + 1), s)
    eval := fun _ _ => EvalVal.vNodes }

def exprC4 : Expr Nat Nat := { s := "child::node()", q := qStepC4 }

def implC4 : NavImpl Nat := { moveToOk := fun _ _ => true }

/-- C4 counterexample: advancing the iterator returned by Expr.Select
repositions the very navigator object the caller passed in (reference 0
moves from position 0 to position 1), so evaluation does not pair the
plan with a duplicate of the caller-supplied cursor. -/
theorem select_repositions_caller_cex :
    ((exprC4.Select 0).MoveNext implC4 ⟨[0]⟩).2.2.get 0 ≠
      Heap.get (⟨[0]⟩ : Heap Nat) 0 := by decide

/-- C4 amended: Expr.Select pairs a Clone of the plan with the
caller-supplied navigator object itself, not a copy: the iterator holds
the caller's reference, and advancing it repositions that same object
via MoveTo whenever the repositioning succeeds (only a failed MoveTo
makes the iterator switch to a fresh copy of the match). -/
theorem select_aliases_caller_navigator [Inhabited Pos] (expr : Expr Pos σ)
    (impl : NavImpl Pos) (h : Heap Pos) (root : NavRef) (p : Pos) (s' : σ)
    (hstep : expr.q.step expr.q.state (h.get root) = (some p, s'))
    (hok : impl.moveToOk (h.get root) p = true) :
    (expr.Select root).node = root ∧
    ((expr.Select root).MoveNext impl h).2.2 = h.set root p ∧
    ((expr.Select root).MoveNext impl h).2.1.node = root := by
  refine ⟨rfl, ?_, ?_⟩ <;>
    simp [Expr.Select, Query.Clone, NodeIterator.MoveNext, hstep, hok]

/-- C4 amended witness: at a concrete expression and heap, advancing the
selected iterator moves the caller's navigator (reference 0) to the
matched position 1 while the iterator keeps holding reference 0. -/
theorem select_aliases_caller_navigator_witness :
    (exprC4.Select 0).node = 0 ∧
    ((exprC4.Select 0).MoveNext implC4 ⟨[0]⟩).2.2 = Heap.set ⟨[0]⟩ 0 1 ∧
    ((exprC4.Select 0).MoveNext implC4 ⟨[0]⟩).2.1.node = 0 :=
  select_aliases_caller_navigator exprC4 implC4 ⟨[0]⟩ 0 1 0 rfl rfl

/-- The content a consumer drains from an iterator depends only on the
query value and the position under the iterator's navigator reference,
never on the identity of that reference or the rest of the heap. -/
theorem drainAll_content_eq [Inhabited Pos] (impl : NavImpl Pos) (n : Nat) :
    ∀ (t₁ t₂ : NodeIterator Pos σ) (h₁ h₂ : Heap Pos),
      t₁.query = t₂.query →
      t₁.node < h₁.objs.length → t₂.node < h₂.objs.length →
      h₁.get t₁.node = h₂.get t₂.node →
      (drainAll impl n t₁ h₁).1 = (drainAll impl n t₂ h₂).1 := by
  induction n with
  | zero => intro t₁ t₂ h₁ h₂ _ _ _ _; rfl
  | succ n ih =>
      intro t₁ t₂ h₁ h₂ hq hv₁ hv₂ hpos
      have hsame : t₂.query.step t₂.query.state (h₂.get t₂.node) =
          t₁.query.step t₁.query.state (h₁.get t₁.node) := by
        rw [hq, hpos]
      cases hs : t₁.query.step t₁.query.state (h₁.get t₁.node) with
      | mk o s' =>
          have hs₂ : t₂.query.step t₂.query.state (h₂.get t₂.node) = (o, s') := by
            rw [hsame, hs]
          cases o with
          | none => simp [drainAll, NodeIterator.MoveNext, hs, hs₂]
          | some p =>
              have hmeq : impl.moveToOk (h₂.get t₂.node) p =
                  impl.moveToOk (h₁.get t₁.node) p := by rw [hpos]
              by_cases hm : impl.moveToOk (h₁.get t₁.node) p = true
              · have hm₂ : impl.moveToOk (h₂.get t₂.node) p = true := by
                  rw [hmeq]; exact hm
                have ihc := ih
                  { node := t₁.node, query := { t₁.query with state := s' } }
                  { node := t₂.node, query := { t₂.query with state := s' } }
                  (h₁.set t₁.node p) (h₂.set t₂.node p)
                  (by rw [hq])
                  (by simpa [Heap.set] using hv₁)
                  (by simpa [Heap.set] using hv₂)
                  (by rw [Heap.get_set_self h₁ t₁.node p hv₁,
                        Heap.get_set_self h₂ t₂.node p hv₂])
                simp [drainAll, NodeIterator.MoveNext, hs, hs₂, hm, hm₂,
                  Heap.get_set_self h₁ t₁.node p hv₁,
                  Heap.get_set_self h₂ t₂.node p hv₂, ihc]
              · have hm' : impl.moveToOk (h₁.get t₁.node) p = false := by
                  simpa using hm
                have hm₂ : impl.moveToOk (h₂.get t₂.node) p = false := by
                  rw [hmeq]; exact hm'
                have ihc := ih
                  { node := h₁.objs.length, query := { t₁.query with state := s' } }
                  { node := h₂.objs.length, query := { t₂.query with state := s' } }
                  ⟨h₁.objs ++ [p]⟩ ⟨h₂.objs ++ [p]⟩
                  (by rw [hq]) (by simp) (by simp)
                  (by rw [Heap.get_alloc h₁ p, Heap.get_alloc h₂ p])
                simp [drainAll, NodeIterator.MoveNext, hs, hs₂, hm', hm₂,
                  Heap.get_alloc h₁ p, Heap.get_alloc h₂ p, ihc]

def qOnceC5 : Query Nat Nat :=
  { state := 0
    step := fun s cur => if s = 0 then (some (cur + 1), 1) else (none, s)
    eval := fun _ _ => EvalVal.vNodes }

def exprC5 : Expr Nat Nat := { s := "following-sibling::node()", q := qOnceC5 }

def implC5 : NavImpl Nat := { moveToOk := fun _ _ => true }

/-- C5 counterexample: draining one evaluation of the compiled expression
repositions the shared caller-supplied navigator, so re-evaluating
against the same starting cursor (the same navigator object, reference 0)
afterwards yields different content — the two evaluation runs are not
independent. -/
theorem reevaluation_content_differs_cex :
    (drainAll implC5 2 (exprC5.Select 0) ⟨[0]⟩).1 ≠
      (drainAll implC5 2 (exprC5.Select 0)
        (drainAll implC5 2 (exprC5.Select 0) ⟨[0]⟩).2).1 := by decide

/-- C5 amended: every call to Expr.Select builds its iterator over a
Clone of the stored plan and evaluation never mutates the Expr, so two
evaluation runs share no query iteration state and draining them from
navigators holding equal positions yields identical content; the
iterators do, however, share the caller-supplied navigator object
itself, whose repositioning is what a later run can observe. -/
theorem select_clone_independent_content [Inhabited Pos] (expr : Expr Pos σ)
    (impl : NavImpl Pos) (root₁ root₂ : NavRef) (h₁ h₂ : Heap Pos) (n : Nat)
    (hv₁ : root₁ < h₁.objs.length) (hv₂ : root₂ < h₂.objs.length)
    (hpos : h₁.get root₁ = h₂.get root₂) :
    (expr.Select root₁).query = expr.q.Clone ∧
    (expr.Select root₁).node = root₁ ∧
    (drainAll impl n (expr.Select root₁) h₁).1 =
      (drainAll impl n (expr.Select root₂) h₂).1 :=
  ⟨rfl, rfl, drainAll_content_eq impl n _ _ _ _ rfl hv₁ hv₂ hpos⟩

/-- C5 amended witness: concrete drains of the same compiled expression
from two navigators holding equal positions yield equal content. -/
theorem select_clone_independent_content_witness :
    (exprC5.Select 0).query = exprC5.q.Clone ∧
    (exprC5.Select 0).node = 0 ∧
    (drainAll implC5 3 (exprC5.Select 0) ⟨[5, 5]⟩).1 =
      (drainAll implC5 3 (exprC5.Select 1) ⟨[5, 5]⟩).1 :=
  select_clone_independent_content exprC5 implC5 0 1 ⟨[5, 5]⟩ ⟨[5, 5]⟩ 3
    (by decide) (by decide) (by decide)

end XPath
